import Mathlib

/-!
Shallow embedding of the polling/multiplexing core of
`src/libsensors/sensors.cpp` (the Samsung i927 sensors HAL).

The build configuration of this repository defines `USE_LIGHT`, `USE_AKM`,
`USE_ORIENT`, `USE_KXT`, `USE_NCT` and leaves `USE_MPU` commented out, so the
driver-slot enum of `sensors_poll_context_t` is
`light = 0, kxt = 1, akm = 2, nct = 3, proximity = 4`, with
`numSensorDrivers = 5`, `numFds = 6` and the wake pipe read end at slot
`wake = numFds - 1 = 5`.

External sensor drivers (`LightSensor`, `KXTFSensor`, `AkmSensor`,
`NctSensor`, `ProximitySensor`) and the kernel (`poll`, pipe reads/writes)
are modelled as an oracle `EnvOps` over an abstract environment state: the
context code never inspects their internals beyond the documented driver
capability interface, so any behaviour of the real collaborators is one
instantiation of the oracle.
-/

/-- Slot index of the light sensor driver (`light = 0` in the slot enum). -/
def light : Nat := 0

/-- Slot index of the KXTF9 accelerometer driver (`kxt`). -/
def kxt : Nat := 1

/-- Slot index of the AKM8975 magnetometer/orientation driver (`akm`). -/
def akm : Nat := 2

/-- Slot index of the NCT1008 temperature driver (`nct`, `USE_NCT` is defined). -/
def nct : Nat := 3

/-- Slot index of the proximity driver (`proximity`, last driver slot). -/
def proximity : Nat := 4

/-- `numSensorDrivers` from the slot enum: 5 drivers in this build. -/
def numSensorDrivers : Nat := 5

/-- `numFds` from the slot enum: the driver fds plus the wake pipe read end. -/
def numFds : Nat := 6

/-- `static const size_t wake = numFds - 1;` — index of the wake pipe entry. -/
def wake : Nat := numFds - 1

/-- `static const char WAKE_MESSAGE = 'W';` -/
def WAKE_MESSAGE : Char := 'W'

/-- The `POLLIN` bit tested by `revents & POLLIN`. -/
def POLLIN : Nat := 1

/-- `EINVAL` (the errno value returned negated by `handleToDriver`). -/
def EINVAL : Int := 22

/-- One entry of `struct pollfd mPollFds[numFds]`: file descriptor, interest
flags (`events`) and readiness flags (`revents`). -/
structure Pollfd where
  fd : Int
  events : Nat
  revents : Nat
deriving DecidableEq, Repr

/-- Modelled from the spec: the stable sensor identifiers (`ID_A`, `ID_M`,
`ID_O`, `ID_P`, `ID_L`, `ID_GY`, `ID_T`) come from this repository's
`sensors.h`, which is not under `src/`; the spec only requires them to be
distinct stable identifiers, so they are modelled as a sum type. `other`
covers every integer handle that is none of the named identifiers. -/
inductive HandleId where
  | A
  | M
  | O
  | P
  | L
  | GY
  | T
  | other (v : Int)
deriving DecidableEq, Repr

/-- `sensors_poll_context_t::handleToDriver`: the static handle → slot
mapping.  With `USE_MPU` undefined the `ID_GY` case is compiled out, and with
`USE_NCT` defined the `ID_T` case is present; every unmapped handle falls
through to `return -EINVAL`. -/
def handleToDriver : HandleId → Int
  | .A => (kxt : Int)
  | .M => (akm : Int)
  | .O => (akm : Int)
  | .P => (proximity : Int)
  | .L => (light : Int)
  | .T => (nct : Int)
  | .GY => -EINVAL
  | .other _ => -EINVAL

/-- The context state owned by `sensors_poll_context_t` that the modelled
operations touch: the `mPollFds` array and the byte stream currently
buffered in the wake pipe (head = next byte the read end returns). -/
structure Ctx where
  pollFds : List Pollfd
  wakePipe : List Char
deriving DecidableEq, Repr

/-- Result of one `poll()` call: either a failure with the resulting
`errno`, or the new `revents` values the kernel wrote into `mPollFds`. -/
inductive PollRes where
  | err (e : Nat)
  | ok (rvs : List Nat)
deriving DecidableEq, Repr

/-- The oracle for every external collaborator of the context: the five
driver objects (indexed by slot) and the kernel's `poll`.  `σ` is the
abstract state of the outside world, `ε` the opaque event record type. -/
structure EnvOps (σ ε : Type) where
  hasPendingEvents : Nat → σ → Bool
  readEvents : Nat → Int → σ → List ε × σ
  enable : Nat → HandleId → Int → σ → Int × σ
  setDelay : Nat → HandleId → Int → σ → Int × σ
  pollSys : Int → σ → PollRes × σ

/-- `mPollFds[i]` (out-of-range reads yield a zeroed entry; all modelled
accesses are in range). -/
def fdAt (fds : List Pollfd) (i : Nat) : Pollfd :=
  fds.getD i ⟨0, 0, 0⟩

/-- `mPollFds[i].revents = v` as a list update. -/
def setRevents (fds : List Pollfd) (i : Nat) (v : Nat) : List Pollfd :=
  fds.set i { fdAt fds i with revents := v }

/-- `poll()` writing fresh `revents` values into `mPollFds`: entry `i`
receives `rvs[i]`; `fd` and `events` are never touched. -/
def applyRevents : List Pollfd → List Nat → List Pollfd
  | [], _ => []
  | fds, [] => fds
  | f :: fds, r :: rs => { f with revents := r } :: applyRevents fds rs

/-- The drain-pass readiness test for slot `i`:
`(mPollFds[i].revents & POLLIN) || (sensor->hasPendingEvents())`. -/
def slotReady (ops : EnvOps σ ε) (fds : List Pollfd) (i : Nat) (env : σ) : Bool :=
  ((fdAt fds i).revents &&& POLLIN != 0) || ops.hasPendingEvents i env

/-- One iteration of the drain `for` loop body for slot `i` (the part that
runs once the loop condition held): if the slot is ready, call
`readEvents(data, count)`; clear `revents` when the driver returned strictly
fewer events than the remaining room (`nb < count`); advance the buffer and
the remaining room.  Events are tagged with the slot that produced them.
Returns `(mPollFds, env, produced events, remaining count)`. -/
def drainStep (ops : EnvOps σ ε) (i : Nat) (fds : List Pollfd) (env : σ)
    (count : Int) : List Pollfd × σ × List (Nat × ε) × Int :=
  if slotReady ops fds i env = true then
    let res := ops.readEvents i count env
    let nb : Int := res.1.length
    let fds1 := if nb < count then setRevents fds i 0 else fds
    (fds1, res.2, res.1.map (fun e => (i, e)), count - nb)
  else (fds, env, [], count)

/-- The drain `for` loop
`for (int i=0 ; count && i<numSensorDrivers ; i++)` over the remaining slot
list: stops early when `count` reaches zero. -/
def drainSlots (ops : EnvOps σ ε) : List Nat → List Pollfd → σ → Int →
    List Pollfd × σ × List (Nat × ε)
  | [], fds, env, _ => (fds, env, [])
  | i :: rest, fds, env, count =>
    if count = 0 then (fds, env, [])
    else
      let s := drainStep ops i fds env count
      let t := drainSlots ops rest s.1 s.2.1 s.2.2.2
      (t.1, t.2.1, s.2.2.1 ++ t.2.2)

/-- The slots the drain pass visits, in declaration order. -/
def driverSlots : List Nat := List.range numSensorDrivers

/-- The timeout argument of the multiplexed wait: `nbEvents ? 0 : -1`. -/
def pollTimeout (nbEvents : Int) : Int :=
  if nbEvents ≠ 0 then 0 else -1

/-- Result of one wait pass: either the early `return -errno`, or the new
`mPollFds`, wake pipe contents, environment and `poll`'s return value `n`. -/
inductive WaitRes (σ : Type) where
  | fail (r : Int) (env : σ)
  | ready (fds : List Pollfd) (pipe : List Char) (env : σ) (n : Nat)
deriving DecidableEq, Repr

/-- The wait pass of `pollEvents`:
`n = poll(mPollFds, numFds, nbEvents ? 0 : -1)`; on failure return `-errno`;
on success, if the wake entry's `revents` has `POLLIN`, read one byte from
the wake pipe (content only logged) and clear the wake entry's `revents`.
`n` is the number of `pollfd` entries with nonzero `revents`. -/
def waitPass (ops : EnvOps σ ε) (fds : List Pollfd) (pipe : List Char)
    (env : σ) (nbEvents : Int) : WaitRes σ :=
  match ops.pollSys (pollTimeout nbEvents) env with
  | (.err e, env1) => .fail (-(e : Int)) env1
  | (.ok rvs, env1) =>
    let fds1 := applyRevents fds rvs
    let n := (fds1.filter (fun p => p.revents != 0)).length
    if (fdAt fds1 wake).revents &&& POLLIN ≠ 0 then
      .ready (setRevents fds1 wake 0) pipe.tail env1 n
    else .ready fds1 pipe env1 n

/-- The `do { ... } while (n && count)` loop of
`sensors_poll_context_t::pollEvents`, driven by fuel (the C loop may run
unboundedly many iterations; `none` means the fuel ran out before the call
returned).  Because `n` starts at `0` and is overwritten exactly when
`count` is still nonzero after the drain pass, the loop exits right after a
drain pass that fills the buffer, and otherwise continues iff the wait
reported readiness (`n ≠ 0`).  Returns
`(return value, context, env, accumulated tagged events)`. -/
def pollLoop (ops : EnvOps σ ε) : Nat → Ctx → σ → Int → Int →
    List (Nat × ε) → Option (Int × Ctx × σ × List (Nat × ε))
  | 0, _, _, _, _, _ => none
  | fuel + 1, ctx, env, count, nbEvents, acc =>
    let d := drainSlots ops driverSlots ctx.pollFds env count
    let len : Int := d.2.2.length
    let count1 := count - len
    let nb1 := nbEvents + len
    let acc1 := acc ++ d.2.2
    if count1 = 0 then some (nb1, ⟨d.1, ctx.wakePipe⟩, d.2.1, acc1)
    else
      match waitPass ops d.1 ctx.wakePipe d.2.1 nb1 with
      | .fail r env2 => some (r, ⟨d.1, ctx.wakePipe⟩, env2, acc1)
      | .ready fds2 pipe2 env2 n =>
        if n = 0 then some (nb1, ⟨fds2, pipe2⟩, env2, acc1)
        else pollLoop ops fuel ⟨fds2, pipe2⟩ env2 count1 nb1 acc1

/-- `sensors_poll_context_t::pollEvents(data, count)`: the loop starts with
`nbEvents = 0`, `n = 0` and an empty output buffer. -/
def pollEvents (ops : EnvOps σ ε) (fuel : Nat) (ctx : Ctx) (env : σ)
    (count : Int) : Option (Int × Ctx × σ × List (Nat × ε)) :=
  pollLoop ops fuel ctx env count 0 []

/-- `sensors_poll_context_t::activate(handle, enabled)`: resolve the handle,
fail with the mapping's sentinel when unmapped, otherwise delegate to the
driver's `enable` (passing the original handle).  On `enabled && !err`,
attempt to write one `WAKE_MESSAGE` byte to the wake pipe's write end;
`writeOk` models whether that `write` succeeds (failures are only logged).
Returns `(return value, context, env)`. -/
def activate (ops : EnvOps σ ε) (writeOk : Bool) (ctx : Ctx) (env : σ)
    (handle : HandleId) (enabled : Int) : Int × Ctx × σ :=
  if handleToDriver handle < 0 then (handleToDriver handle, ctx, env)
  else if enabled ≠ 0 ∧ (ops.enable (handleToDriver handle).toNat handle enabled env).1 = 0
          ∧ writeOk = true then
    ((ops.enable (handleToDriver handle).toNat handle enabled env).1,
      { ctx with wakePipe := ctx.wakePipe ++ [WAKE_MESSAGE] },
      (ops.enable (handleToDriver handle).toNat handle enabled env).2)
  else
    ((ops.enable (handleToDriver handle).toNat handle enabled env).1, ctx,
      (ops.enable (handleToDriver handle).toNat handle enabled env).2)

/-- `sensors_poll_context_t::setDelay(handle, ns)`: resolve the handle, fail
with the mapping's sentinel when unmapped, otherwise return the driver's
`setDelay(handle, ns)` result.  The context itself is untouched. -/
def setDelay (ops : EnvOps σ ε) (ctx : Ctx) (env : σ) (handle : HandleId)
    (ns : Int) : Int × Ctx × σ :=
  if handleToDriver handle < 0 then (handleToDriver handle, ctx, env)
  else
    ((ops.setDelay (handleToDriver handle).toNat handle ns env).1, ctx,
      (ops.setDelay (handleToDriver handle).toNat handle ns env).2)

/-- A context in the constructed state: six `pollfd` entries with `POLLIN`
interest and clear readiness, empty wake pipe. -/
def ctx0 : Ctx :=
  ⟨[⟨3, POLLIN, 0⟩, ⟨4, POLLIN, 0⟩, ⟨5, POLLIN, 0⟩,
    ⟨6, POLLIN, 0⟩, ⟨7, POLLIN, 0⟩, ⟨8, POLLIN, 0⟩], []⟩

/-- A quiescent world: no pending events, `readEvents` always empty,
driver calls succeed, `poll` reports nothing ready. -/
def opsB : EnvOps Nat Nat where
  hasPendingEvents := fun _ _ => false
  readEvents := fun _ _ env => ([], env)
  enable := fun _ _ _ env => (0, env)
  setDelay := fun _ _ _ env => (0, env)
  pollSys := fun _ env => (.ok [0, 0, 0, 0, 0, 0], env)

/-- A world where the light driver has two buffered events and the next
`poll` fails with `errno = 5`. -/
def opsE : EnvOps Nat Nat where
  hasPendingEvents := fun i _ => i == 0
  readEvents := fun _ _ env => ([7, 8], env)
  enable := fun _ _ _ env => (0, env)
  setDelay := fun _ _ _ env => (0, env)
  pollSys := fun _ env => (.err 5, env)

/-- A world where the light and proximity drivers are both ready and every
`readEvents` yields three events. -/
def opsC : EnvOps Nat Nat where
  hasPendingEvents := fun i _ => i == 0 || i == 4
  readEvents := fun _ _ env => ([10, 11, 12], env)
  enable := fun _ _ _ env => (0, env)
  setDelay := fun _ _ _ env => (0, env)
  pollSys := fun _ env => (.ok [0, 0, 0, 0, 0, 0], env)

/-- A world where `poll` reports only the wake pipe entry ready. -/
def opsW : EnvOps Nat Nat where
  hasPendingEvents := fun _ _ => false
  readEvents := fun _ _ env => ([], env)
  enable := fun _ _ _ env => (0, env)
  setDelay := fun _ _ _ env => (0, env)
  pollSys := fun _ env => (.ok [0, 0, 0, 0, 0, POLLIN], env)

/-! ## Helper lemmas -/

/-- Clearing the wake entry's readiness really leaves it cleared (also when
the pollfd list is too short to contain the index, where the zeroed default
entry is returned). -/
theorem revents_setRevents_zero (fds : List Pollfd) (i : Nat) :
    (fdAt (setRevents fds i 0) i).revents = 0 := by
  induction fds generalizing i with
  | nil => simp [setRevents, fdAt]
  | cons f fs ih =>
    cases i with
    | zero => simp [setRevents, fdAt]
    | succ j => simpa [setRevents, fdAt] using ih j

/-- Unfolding equation for the drain pass on an empty slot list. -/
theorem drainSlots_nil (ops : EnvOps σ ε) (fds : List Pollfd) (env : σ)
    (count : Int) : drainSlots ops [] fds env count = (fds, env, []) := rfl

/-- Unfolding equation for the drain pass on a nonempty slot list. -/
theorem drainSlots_cons (ops : EnvOps σ ε) (i : Nat) (rest : List Nat)
    (fds : List Pollfd) (env : σ) (count : Int) :
    drainSlots ops (i :: rest) fds env count =
      if count = 0 then (fds, env, [])
      else
        let s := drainStep ops i fds env count
        let t := drainSlots ops rest s.1 s.2.1 s.2.2.2
        (t.1, t.2.1, s.2.2.1 ++ t.2.2) := rfl

/-- A drain pass over any slot list with no room reads nothing. -/
theorem drainSlots_zero (ops : EnvOps σ ε) (slots : List Nat)
    (fds : List Pollfd) (env : σ) :
    drainSlots ops slots fds env 0 = (fds, env, []) := by
  cases slots
  · rw [drainSlots_nil]
  · rw [drainSlots_cons, if_pos rfl]

/-- A slot that is neither readable nor has pending events is skipped by the
drain pass. -/
theorem drainSlots_skip (ops : EnvOps σ ε) (i : Nat) (rest : List Nat)
    (fds : List Pollfd) (env : σ) (count : Int)
    (hnr : slotReady ops fds i env = false) :
    drainSlots ops (i :: rest) fds env count =
      drainSlots ops rest fds env count := by
  rw [drainSlots_cons]
  split_ifs with h0
  · rw [h0, drainSlots_zero]
  · simp [drainStep, hnr]

/-- A ready slot whose `readEvents` fills the whole remaining room ends the
drain pass: its readiness flag is left untouched, the room is exhausted, and
all produced events carry that slot's tag. -/
theorem drainSlots_first_fill (ops : EnvOps σ ε) (a : Nat) (rest : List Nat)
    (fds : List Pollfd) (env : σ) (count : Int)
    (hready : slotReady ops fds a env = true) (hc : count ≠ 0)
    (hfill : (((ops.readEvents a count env).1.length : Int)) = count) :
    drainSlots ops (a :: rest) fds env count =
      (fds, (ops.readEvents a count env).2,
        (ops.readEvents a count env).1.map (fun e => (a, e))) := by
  rw [drainSlots_cons, if_neg hc]
  have hnblt : ¬ (((ops.readEvents a count env).1.length : Int)) < count := by
    rw [hfill]; exact lt_irrefl count
  simp [drainStep, hready, hnblt, hfill, drainSlots_zero]

/-- The early `return -errno` of the wait pass never produces a positive
value. -/
theorem waitPass_fail_nonpos (ops : EnvOps σ ε) (fds : List Pollfd)
    (pipe : List Char) (env : σ) (nbEvents r : Int) (env2 : σ)
    (h : waitPass ops fds pipe env nbEvents = .fail r env2) : r ≤ 0 := by
  unfold waitPass at h
  rcases hps : ops.pollSys (pollTimeout nbEvents) env with ⟨pr, env1⟩
  rw [hps] at h
  cases pr with
  | err e =>
    simp only [WaitRes.fail.injEq] at h
    omega
  | ok rvs =>
    dsimp at h
    split at h <;> exact WaitRes.noConfusion h

/-! ## Claim theorems -/

/-- C1: `activate(id, enabled)` and `setDelay(id, ns)` return the static
mapping's `-EINVAL` sentinel exactly when the handle is unmapped
(`ID_A`, `ID_M`, `ID_O`, `ID_P`, `ID_L`, `ID_T` are the mapped handles in
this build); for a mapped handle the result is exactly the resolved
driver's `enable`/`setDelay` return value, never the mapping's own
sentinel. -/
theorem activate_setDelay_invalid_iff_unmapped (ops : EnvOps σ ε)
    (writeOk : Bool) (ctx : Ctx) (env : σ) (h : HandleId) (enabled ns : Int) :
    (handleToDriver h < 0 →
      (activate ops writeOk ctx env h enabled).1 = -EINVAL ∧
      (setDelay ops ctx env h ns).1 = -EINVAL) ∧
    (0 ≤ handleToDriver h →
      (activate ops writeOk ctx env h enabled).1 =
        (ops.enable (handleToDriver h).toNat h enabled env).1 ∧
      (setDelay ops ctx env h ns).1 =
        (ops.setDelay (handleToDriver h).toNat h ns env).1) := by
  cases h <;>
    simp [activate, setDelay, handleToDriver, EINVAL, light, kxt, akm, nct,
      proximity] <;>
    split_ifs <;> simp

/-- C1 witness: the unmapped handle `other 9` yields the sentinel, the
mapped handle `ID_A` yields the driver's own return value. -/
theorem activate_setDelay_invalid_iff_unmapped_witness :
    (activate opsB true ctx0 0 (HandleId.other 9) 1).1 = -EINVAL ∧
    (activate opsB true ctx0 0 HandleId.A 1).1 =
      (opsB.enable (handleToDriver HandleId.A).toNat HandleId.A 1 0).1 := by
  refine ⟨?_, ?_⟩
  · exact ((activate_setDelay_invalid_iff_unmapped opsB true ctx0 0
      (HandleId.other 9) 1 7).1 (by decide)).1
  · exact ((activate_setDelay_invalid_iff_unmapped opsB true ctx0 0
      HandleId.A 1 7).2 (by decide)).1

/-- C5: for a mapped handle, `activate` appends exactly one `WAKE_MESSAGE`
byte to the wake pipe precisely when the call is a successful enable
(`enabled && !err`) and the `write` itself succeeds; otherwise the pipe is
untouched; and the return value is always exactly the driver's `enable`
result, regardless of whether the wake write succeeded. -/
theorem activate_wake_byte (ops : EnvOps σ ε) (writeOk : Bool) (ctx : Ctx)
    (env : σ) (h : HandleId) (enabled : Int)
    (hmap : 0 ≤ handleToDriver h) :
    (activate ops writeOk ctx env h enabled).1 =
      (ops.enable (handleToDriver h).toNat h enabled env).1 ∧
    (activate ops writeOk ctx env h enabled).2.1.wakePipe =
      (if enabled ≠ 0 ∧ (ops.enable (handleToDriver h).toNat h enabled env).1 = 0
          ∧ writeOk = true
       then ctx.wakePipe ++ [WAKE_MESSAGE] else ctx.wakePipe) := by
  have hnot : ¬ handleToDriver h < 0 := not_lt.mpr hmap
  unfold activate
  rw [if_neg hnot]
  split_ifs with hc <;> exact ⟨rfl, rfl⟩

/-- C5 witness: a successful enable of `ID_A` with a succeeding write
appends exactly one `'W'`; a disable leaves the pipe untouched. -/
theorem activate_wake_byte_witness :
    (activate opsB true ctx0 0 HandleId.A 1).2.1.wakePipe = [WAKE_MESSAGE] ∧
    (activate opsB false ctx0 0 HandleId.A 1).2.1.wakePipe = [] ∧
    (activate opsB true ctx0 0 HandleId.A 0).2.1.wakePipe = [] := by
  refine ⟨?_, ?_, ?_⟩
  · rw [(activate_wake_byte opsB true ctx0 0 HandleId.A 1 (by decide)).2]; rfl
  · rw [(activate_wake_byte opsB false ctx0 0 HandleId.A 1 (by decide)).2]; rfl
  · rw [(activate_wake_byte opsB true ctx0 0 HandleId.A 0 (by decide)).2]; rfl

/-- C6: in a drain-pass iteration that reads a ready slot, the slot's
readiness flag is cleared exactly when the driver returned strictly fewer
events than the remaining room; when it filled the room exactly (or
overfilled it), the flag is left untouched for the next pass. -/
theorem drainStep_readiness_flag (ops : EnvOps σ ε) (fds : List Pollfd)
    (env : σ) (count : Int) (i : Nat)
    (hready : slotReady ops fds i env = true) :
    (drainStep ops i fds env count).1 =
      (if (((ops.readEvents i count env).1.length : Int)) < count
       then setRevents fds i 0 else fds) := by
  simp [drainStep, hready]

/-- C6 witness: the light slot in `opsE` returns 2 < 5 events, so its flag
is cleared; in `opsC` it returns 3 = 3 events, so the flags are untouched. -/
theorem drainStep_readiness_flag_witness :
    (drainStep opsE 0 ctx0.pollFds 0 5).1 =
      (if (((opsE.readEvents 0 5 0).1.length : Int)) < 5
       then setRevents ctx0.pollFds 0 0 else ctx0.pollFds) ∧
    (drainStep opsC 0 ctx0.pollFds 0 3).1 = ctx0.pollFds := by
  refine ⟨drainStep_readiness_flag opsE ctx0.pollFds 0 5 0 (by decide), ?_⟩
  rw [drainStep_readiness_flag opsC ctx0.pollFds 0 3 0 (by decide)]
  rfl

/-- C7: the timeout handed to the multiplexed wait is `0` (non-blocking)
exactly when at least one event was already accumulated this call, and `-1`
(block indefinitely) exactly when none was; `nbEvents` is never negative
during `pollEvents`, which the hypothesis records. -/
theorem pollTimeout_nonblocking_iff (nbEvents : Int) (h : 0 ≤ nbEvents) :
    (pollTimeout nbEvents = 0 ↔ 0 < nbEvents) ∧
    (pollTimeout nbEvents = -1 ↔ nbEvents = 0) := by
  unfold pollTimeout
  by_cases hne : nbEvents = 0
  · rw [if_neg (by simp [hne])]
    refine ⟨⟨fun h1 => absurd h1 (by decide), fun h1 => by omega⟩,
      ⟨fun _ => hne, fun _ => rfl⟩⟩
  · rw [if_pos hne]
    refine ⟨⟨fun _ => by omega, fun _ => rfl⟩,
      ⟨fun h1 => absurd h1 (by decide), fun h1 => absurd h1 hne⟩⟩

/-- C7 witness: with two events accumulated the wait is non-blocking, with
none it blocks indefinitely. -/
theorem pollTimeout_nonblocking_iff_witness :
    (pollTimeout 2 = 0 ↔ (0 : Int) < 2) ∧
    (pollTimeout 2 = -1 ↔ (2 : Int) = 0) :=
  pollTimeout_nonblocking_iff 2 (by decide)

/-- C9: for a mapped handle, `setDelay` passes the original handle and the
interval to the resolved driver, returns exactly the driver's result, and
never writes to the wake pipe (the whole context is untouched). -/
theorem setDelay_delegates_no_wake (ops : EnvOps σ ε) (ctx : Ctx) (env : σ)
    (h : HandleId) (ns : Int) (hmap : 0 ≤ handleToDriver h) :
    setDelay ops ctx env h ns =
      ((ops.setDelay (handleToDriver h).toNat h ns env).1, ctx,
        (ops.setDelay (handleToDriver h).toNat h ns env).2) ∧
    (setDelay ops ctx env h ns).2.1.wakePipe = ctx.wakePipe := by
  have hnot : ¬ handleToDriver h < 0 := not_lt.mpr hmap
  unfold setDelay
  rw [if_neg hnot]
  exact ⟨rfl, rfl⟩

/-- C9 witness: `setDelay` on `ID_M` returns the driver result and leaves
the wake pipe empty. -/
theorem setDelay_delegates_no_wake_witness :
    setDelay opsB ctx0 0 HandleId.M 100 =
      ((opsB.setDelay (handleToDriver HandleId.M).toNat HandleId.M 100 0).1,
        ctx0, (opsB.setDelay (handleToDriver HandleId.M).toNat HandleId.M 100 0).2) ∧
    (setDelay opsB ctx0 0 HandleId.M 100).2.1.wakePipe = ctx0.wakePipe :=
  setDelay_delegates_no_wake opsB ctx0 0 HandleId.M 100 (by decide)

/-- C10: for every handle and argument, `activate` and `setDelay` leave the
whole `mPollFds` array (fds, interest flags and readiness flags, wake entry
included) unchanged; `setDelay` leaves the whole context unchanged, and the
only context-owned state `activate` can touch is the wake pipe byte
stream. -/
theorem control_ops_frame (ops : EnvOps σ ε) (writeOk : Bool) (ctx : Ctx)
    (env : σ) (h : HandleId) (enabled ns : Int) :
    (activate ops writeOk ctx env h enabled).2.1.pollFds = ctx.pollFds ∧
    (setDelay ops ctx env h ns).2.1 = ctx ∧
    ((activate ops writeOk ctx env h enabled).2.1 = ctx ∨
      (activate ops writeOk ctx env h enabled).2.1 =
        { ctx with wakePipe := ctx.wakePipe ++ [WAKE_MESSAGE] }) := by
  refine ⟨?_, ?_, ?_⟩
  · unfold activate; split_ifs <;> rfl
  · unfold setDelay; split_ifs <;> rfl
  · unfold activate
    split_ifs <;> first
      | exact Or.inl rfl
      | exact Or.inr rfl

/-- C8 counterexample: with two signal bytes buffered in the wake pipe and
the wake handle reported ready, one wait pass removes only one byte — the
pass does not drain all the bytes available from the wake channel's read
end, refuting the claim at this input. -/
theorem waitPass_wake_leftover_byte_cex :
    waitPass opsW ctx0.pollFds [WAKE_MESSAGE, WAKE_MESSAGE] 0 0 =
      WaitRes.ready ctx0.pollFds [WAKE_MESSAGE] 0 1 ∧
    [WAKE_MESSAGE] ≠ ([] : List Char) := by
  exact ⟨rfl, by simp⟩

/-- C8 (amended): in every wait pass in which `poll` succeeds and reports
the wake handle ready, `pollEvents` reads exactly one byte from the wake
pipe's read end (leaving any further buffered bytes for later passes),
ignores its content beyond the non-fatal logging checks, and clears the
wake slot's readiness flag before the next drain pass. -/
theorem waitPass_wake_one_byte (ops : EnvOps σ ε) (fds : List Pollfd)
    (pipe : List Char) (env : σ) (nbEvents : Int) (rvs : List Nat) (env1 : σ)
    (hok : ops.pollSys (pollTimeout nbEvents) env = (.ok rvs, env1))
    (hwake : (fdAt (applyRevents fds rvs) wake).revents &&& POLLIN ≠ 0) :
    waitPass ops fds pipe env nbEvents =
      .ready (setRevents (applyRevents fds rvs) wake 0) pipe.tail env1
        ((applyRevents fds rvs).filter (fun p => p.revents != 0)).length ∧
    pipe.tail.length = pipe.length - 1 ∧
    (fdAt (setRevents (applyRevents fds rvs) wake 0) wake).revents = 0 := by
  refine ⟨?_, ?_, revents_setRevents_zero (applyRevents fds rvs) wake⟩
  · unfold waitPass
    rw [hok]
    dsimp only
    rw [if_pos hwake]
  · cases pipe <;> simp

/-- C8 (amended) witness: a concrete wait pass with the wake handle ready
and two buffered bytes removes exactly one byte and clears the flag. -/
theorem waitPass_wake_one_byte_witness :
    waitPass opsW ctx0.pollFds ['W', 'W', 'W'] 0 0 =
      .ready (setRevents (applyRevents ctx0.pollFds [0, 0, 0, 0, 0, POLLIN]) wake 0)
        (['W', 'W', 'W'] : List Char).tail 0
        ((applyRevents ctx0.pollFds [0, 0, 0, 0, 0, POLLIN]).filter
          (fun p => p.revents != 0)).length ∧
    (['W', 'W', 'W'] : List Char).tail.length = (['W', 'W', 'W'] : List Char).length - 1 ∧
    (fdAt (setRevents (applyRevents ctx0.pollFds [0, 0, 0, 0, 0, POLLIN]) wake 0)
      wake).revents = 0 :=
  waitPass_wake_one_byte opsW ctx0.pollFds ['W', 'W', 'W'] 0 0
    [0, 0, 0, 0, 0, POLLIN] 0 rfl (by decide)

/-- C3: whenever the multiplexed wait fails in some iteration (here: the
iteration after whose drain pass room remains and `poll` reports `errno = e`),
`pollEvents` returns `-e` at once; the events already accumulated this call
(`nbEvents`, `acc`) do not appear in the return value, which is negative
whenever `e` is a genuine positive errno. -/
theorem pollEvents_poll_failure_returns_neg_errno (ops : EnvOps σ ε)
    (fuel : Nat) (ctx : Ctx) (env : σ) (count nbEvents : Int)
    (acc : List (Nat × ε)) (fds1 : List Pollfd) (env1 : σ)
    (evs : List (Nat × ε)) (e : Nat) (env2 : σ)
    (hd : drainSlots ops driverSlots ctx.pollFds env count = (fds1, env1, evs))
    (hc : count - (evs.length : Int) ≠ 0)
    (he : ops.pollSys (pollTimeout (nbEvents + (evs.length : Int))) env1 =
      (.err e, env2)) :
    pollLoop ops (fuel + 1) ctx env count nbEvents acc =
      some (-(e : Int), ⟨fds1, ctx.wakePipe⟩, env2, acc ++ evs) ∧
    (0 < e → (-(e : Int)) < 0) := by
  refine ⟨?_, fun hpos => by omega⟩
  rw [pollLoop]
  simp only [hd]
  rw [if_neg hc]
  unfold waitPass
  rw [he]

/-- C3 witness: with two events already collected from the light driver and
`poll` failing with `errno = 5`, `pollEvents` returns `-5`, not `2`. -/
theorem pollEvents_poll_failure_returns_neg_errno_witness :
    pollLoop opsE 1 ctx0 0 5 0 [] =
      some (-(5 : Int), ⟨ctx0.pollFds, ctx0.wakePipe⟩, 0, [] ++ [(0, 7), (0, 8)]) ∧
    ((0 : Nat) < 5 → (-((5 : Nat) : Int)) < 0) :=
  pollEvents_poll_failure_returns_neg_errno opsE 0 ctx0 0 5 0 []
    ctx0.pollFds 0 [(0, 7), (0, 8)] 5 0 rfl (by decide) rfl

/-- One drain iteration under a well-behaved driver produces at most the
remaining room, and the remaining room decreases by exactly the number of
produced events. -/
theorem drainStep_len_le (ops : EnvOps σ ε)
    (hops : ∀ i (c : Int) env, 0 < c →
      (((ops.readEvents i c env).1.length : Int)) ≤ c)
    (i : Nat) (fds : List Pollfd) (env : σ) (count : Int) (hc : 0 < count) :
    (((drainStep ops i fds env count).2.2.1.length : Int)) ≤ count ∧
    (drainStep ops i fds env count).2.2.2 =
      count - (((drainStep ops i fds env count).2.2.1.length : Int)) := by
  unfold drainStep
  split_ifs with h
  · constructor
    · simpa using hops i count env hc
    · simp
  · constructor
    · simpa using le_of_lt hc
    · simp

/-- A whole drain pass under well-behaved drivers produces at most `count`
events. -/
theorem drainSlots_len_le (ops : EnvOps σ ε)
    (hops : ∀ i (c : Int) env, 0 < c →
      (((ops.readEvents i c env).1.length : Int)) ≤ c)
    (slots : List Nat) : ∀ (fds : List Pollfd) (env : σ) (count : Int),
    0 ≤ count → (((drainSlots ops slots fds env count).2.2.length : Int)) ≤ count := by
  induction slots with
  | nil => intro fds env count hc; rw [drainSlots_nil]; simpa using hc
  | cons i rest ih =>
    intro fds env count hc
    rw [drainSlots_cons]
    split_ifs with h0
    · simpa using hc
    · have hcpos : 0 < count := lt_of_le_of_ne hc (Ne.symm h0)
      obtain ⟨h1, h2⟩ := drainStep_len_le ops hops i fds env count hcpos
      have hrec := ih (drainStep ops i fds env count).1
        (drainStep ops i fds env count).2.1
        (drainStep ops i fds env count).2.2.2 (by omega)
      simp only [List.length_append]
      push_cast
      omega

/-- Loop invariant for `pollLoop`: the return value never exceeds the sum
of the events already accumulated and the remaining room, and the final
event list never exceeds the accumulator plus the remaining room. -/
theorem pollLoop_bound (ops : EnvOps σ ε)
    (hops : ∀ i (c : Int) env, 0 < c →
      (((ops.readEvents i c env).1.length : Int)) ≤ c) :
    ∀ (fuel : Nat) (ctx : Ctx) (env : σ) (count nbEvents : Int)
      (acc : List (Nat × ε)) (r : Int) (ctx1 : Ctx) (env1 : σ)
      (evs : List (Nat × ε)), 0 ≤ count → 0 ≤ nbEvents →
      pollLoop ops fuel ctx env count nbEvents acc = some (r, ctx1, env1, evs) →
      r ≤ nbEvents + count ∧ (evs.length : Int) ≤ (acc.length : Int) + count := by
  intro fuel
  induction fuel with
  | zero =>
    intro ctx env count nb acc r ctx1 env1 evs hc hnb h
    exact absurd h (by rw [pollLoop]; exact Option.noConfusion)
  | succ f ih =>
    intro ctx env count nb acc r ctx1 env1 evs hc hnb h
    rw [pollLoop] at h
    have hlen : (((drainSlots ops driverSlots ctx.pollFds env count).2.2.length : Int))
        ≤ count := drainSlots_len_le ops hops driverSlots ctx.pollFds env count hc
    set d := drainSlots ops driverSlots ctx.pollFds env count with hd
    by_cases h0 : count - (d.2.2.length : Int) = 0
    · rw [if_pos h0] at h
      simp only [Option.some.injEq, Prod.mk.injEq] at h
      obtain ⟨hr, -, -, hevs⟩ := h
      subst hr
      subst hevs
      constructor
      · omega
      · simp only [List.length_append]
        push_cast
        omega
    · rw [if_neg h0] at h
      rcases hw : waitPass ops d.1 ctx.wakePipe d.2.1 (nb + (d.2.2.length : Int)) with
        ⟨rr, env2⟩ | ⟨fds2, pipe2, env2, n⟩
      · rw [hw] at h
        dsimp only at h
        simp only [Option.some.injEq, Prod.mk.injEq] at h
        obtain ⟨hr, -, -, hevs⟩ := h
        subst hr
        subst hevs
        have hnp := waitPass_fail_nonpos ops d.1 ctx.wakePipe d.2.1
          (nb + (d.2.2.length : Int)) rr env2 hw
        constructor
        · omega
        · simp only [List.length_append]
          push_cast
          omega
      · rw [hw] at h
        dsimp only at h
        by_cases hn : n = 0
        · rw [if_pos hn] at h
          simp only [Option.some.injEq, Prod.mk.injEq] at h
          obtain ⟨hr, -, -, hevs⟩ := h
          subst hr
          subst hevs
          constructor
          · omega
          · simp only [List.length_append]
            push_cast
            omega
        · rw [if_neg hn] at h
          have := ih ⟨fds2, pipe2⟩ env2 (count - (d.2.2.length : Int))
            (nb + (d.2.2.length : Int)) (acc ++ d.2.2) r ctx1 env1 evs
            (by omega) (by positivity) h
          obtain ⟨hr, hevs⟩ := this
          simp only [List.length_append] at hevs
          constructor
          · omega
          · push_cast at hevs ⊢
            omega

/-- C2: for every capacity `count ≥ 0`, if every driver's `readEvents`
returns at most the room it was offered, then whenever `pollEvents`
returns, its return value — the accumulated `nbEvents` — and the number of
delivered events never exceed the requested capacity. -/
theorem pollEvents_le_capacity (ops : EnvOps σ ε)
    (hops : ∀ i (c : Int) env, 0 < c →
      (((ops.readEvents i c env).1.length : Int)) ≤ c)
    (fuel : Nat) (ctx : Ctx) (env : σ) (count : Int) (r : Int) (ctx1 : Ctx)
    (env1 : σ) (evs : List (Nat × ε)) (hc : 0 ≤ count)
    (h : pollEvents ops fuel ctx env count = some (r, ctx1, env1, evs)) :
    r ≤ count ∧ (evs.length : Int) ≤ count := by
  have := pollLoop_bound ops hops fuel ctx env count 0 [] r ctx1 env1 evs hc
    le_rfl h
  simpa using this

/-- C2 witness: in the quiescent world the call returns 0 events, within
the capacity 5. -/
theorem pollEvents_le_capacity_witness :
    (0 : Int) ≤ 5 ∧ ((([] : List (Nat × Nat)).length : Int)) ≤ 5 :=
  pollEvents_le_capacity opsB
    (fun i c env hc => by simpa [opsB] using le_of_lt hc)
    1 ctx0 0 5 0 ⟨ctx0.pollFds, []⟩ 0 [] (by decide) rfl

/-- C4: the drain pass visits the driver slots in declaration order (light
= 0 first, proximity = 4 last), offering each ready slot the entire
remaining room: if every slot before `a` is idle, slots `a` and `b` (with
`a` earlier than `b`) are both ready, and driver `a` alone supplies the
whole capacity `C`, then `pollEvents` returns exactly `C` events, all
produced by driver `a` and none by the later driver `b`. -/
theorem pollEvents_priority_drain (ops : EnvOps σ ε) (fuel : Nat) (ctx : Ctx)
    (env : σ) (C : Int) (a b : Nat) (ha : a < numSensorDrivers)
    (_hb : b < numSensorDrivers) (hab : a < b) (hC : 0 < C)
    (hbefore : ∀ i, i < a → slotReady ops ctx.pollFds i env = false)
    (hready_a : slotReady ops ctx.pollFds a env = true)
    (_hready_b : slotReady ops ctx.pollFds b env = true)
    (hfill : (((ops.readEvents a C env).1.length : Int)) = C) :
    pollEvents ops (fuel + 1) ctx env C =
      some (C, ctx, (ops.readEvents a C env).2,
        (ops.readEvents a C env).1.map (fun e => (a, e))) ∧
    ∀ p ∈ (ops.readEvents a C env).1.map (fun e => (a, e)),
      p.1 = a ∧ p.1 ≠ b := by
  have hcne : C ≠ 0 := ne_of_gt hC
  have hdrain : drainSlots ops driverSlots ctx.pollFds env C =
      (ctx.pollFds, (ops.readEvents a C env).2,
        (ops.readEvents a C env).1.map (fun e => (a, e))) := by
    have hds : driverSlots = [0, 1, 2, 3, 4] := rfl
    have ha5 : a < 5 := by simpa [numSensorDrivers] using ha
    interval_cases a
    · rw [hds]
      exact drainSlots_first_fill ops 0 [1, 2, 3, 4] ctx.pollFds env C
        hready_a hcne hfill
    · rw [hds, drainSlots_skip ops 0 _ _ _ _ (hbefore 0 (by omega))]
      exact drainSlots_first_fill ops 1 [2, 3, 4] ctx.pollFds env C
        hready_a hcne hfill
    · rw [hds, drainSlots_skip ops 0 _ _ _ _ (hbefore 0 (by omega)),
        drainSlots_skip ops 1 _ _ _ _ (hbefore 1 (by omega))]
      exact drainSlots_first_fill ops 2 [3, 4] ctx.pollFds env C
        hready_a hcne hfill
    · rw [hds, drainSlots_skip ops 0 _ _ _ _ (hbefore 0 (by omega)),
        drainSlots_skip ops 1 _ _ _ _ (hbefore 1 (by omega)),
        drainSlots_skip ops 2 _ _ _ _ (hbefore 2 (by omega))]
      exact drainSlots_first_fill ops 3 [4] ctx.pollFds env C
        hready_a hcne hfill
    · rw [hds, drainSlots_skip ops 0 _ _ _ _ (hbefore 0 (by omega)),
        drainSlots_skip ops 1 _ _ _ _ (hbefore 1 (by omega)),
        drainSlots_skip ops 2 _ _ _ _ (hbefore 2 (by omega)),
        drainSlots_skip ops 3 _ _ _ _ (hbefore 3 (by omega))]
      exact drainSlots_first_fill ops 4 [] ctx.pollFds env C
        hready_a hcne hfill
  constructor
  · have hlen : ((((ops.readEvents a C env).1.map
        (fun e => (a, e))).length : Int)) = C := by
      simpa using hfill
    unfold pollEvents
    rw [pollLoop]
    simp only [hdrain]
    rw [if_pos (show C - ((((ops.readEvents a C env).1.map
      (fun e => (a, e))).length : Int)) = 0 by omega)]
    simp only [zero_add, hlen, List.nil_append]
  · intro p hp
    simp only [List.mem_map] at hp
    obtain ⟨x, -, rfl⟩ := hp
    exact ⟨rfl, by omega⟩

/-- C4 witness: light (slot 0) and proximity (slot 4) both ready, capacity
3 fully supplied by light: all three returned events are light's. -/
theorem pollEvents_priority_drain_witness :
    pollEvents opsC 1 ctx0 0 3 =
      some (3, ctx0, 0, [(0, 10), (0, 11), (0, 12)]) := by
  have h := (pollEvents_priority_drain opsC 0 ctx0 0 3 0 4 (by decide)
    (by decide) (by decide) (by decide)
    (fun i hi => absurd hi (Nat.not_lt_zero i))
    (by decide) (by decide) (by decide)).1
  rw [h]
  rfl
